import Mathlib

/-!
Verification of the next-token-predictor service (an inline text-completion
proxy written in Python) against its natural-language specification.

The Python source is shallowly embedded: Python strings become `List Char`,
pure functions become Lean functions, the TTL cache becomes explicit state
passing with rational timestamps, and the asyncio-based coalescing layer is
embedded as a deterministic event-driven state machine (the event order is
exactly the order in which the single-threaded asyncio event loop runs the
coroutine segments between their await points).

Each definition is annotated with the source file and function it embeds.
-/

/-! ### Python string primitives

Character-level helpers mirroring the semantics of the Python `str`
operations used by the service (`isspace`, `startswith`, substring test,
`lstrip`, `rstrip`, `splitlines` on a newline separator).
-/

/-- Embeds Python `str.isspace` for a single character: true exactly on the
code points Python treats as whitespace (the same set drives `strip`,
`lstrip` and `rstrip` with no arguments). -/
def pyIsSpace (c : Char) : Bool :=
  c = ' ' ∨ c = '\t' ∨ c = '\n' ∨ c = '\x0b' ∨ c = '\x0c' ∨ c = '\r' ∨
  c = Char.ofNat 0x1c ∨ c = Char.ofNat 0x1d ∨ c = Char.ofNat 0x1e ∨
  c = Char.ofNat 0x1f ∨ c = Char.ofNat 0x85 ∨ c = Char.ofNat 0xa0 ∨
  c = Char.ofNat 0x1680 ∨
  (Char.ofNat 0x2000 ≤ c ∧ c ≤ Char.ofNat 0x200a) ∨
  c = Char.ofNat 0x2028 ∨ c = Char.ofNat 0x2029 ∨ c = Char.ofNat 0x202f ∨
  c = Char.ofNat 0x205f ∨ c = Char.ofNat 0x3000

/-- Embeds Python `s.startswith(pat)`: `pat` is a leading segment of `s`. -/
def startsWithB : List Char → List Char → Bool
  | [], _ => true
  | _ :: _, [] => false
  | a :: as, b :: bs => a = b && startsWithB as bs

/-- Embeds Python `pat in s`: `pat` occurs contiguously somewhere in `s`. -/
def isSubstrB (pat : List Char) : List Char → Bool
  | [] => pat.isEmpty
  | c :: cs => startsWithB pat (c :: cs) || isSubstrB pat cs

/-- Embeds Python `s.lstrip()`: drop leading whitespace. -/
def lstripPy (s : List Char) : List Char := s.dropWhile pyIsSpace

/-- Embeds Python `s.rstrip()`: drop trailing whitespace. -/
def rstripPy (s : List Char) : List Char := (s.reverse.dropWhile pyIsSpace).reverse

/-- Embeds Python `s.strip()`: drop whitespace on both ends. -/
def stripPy (s : List Char) : List Char := rstripPy (lstripPy s)

/-- Splits a text into its newline-separated lines (the line decomposition
that anchors `^` and `$` under Python's `re.M` flag). -/
def splitLinesCh : List Char → List (List Char)
  | [] => [[]]
  | c :: cs =>
    let rest := splitLinesCh cs
    if c = '\n' then [] :: rest
    else (c :: rest.headD []) :: rest.tail

/-! ### post_processors/remove_overlap.py -/

/-- Helper for `startLocations`: scans positions `idx, idx+1, ...` of the
remaining characters, with `prev` the character just before position `idx`;
collects each position holding a non-whitespace character preceded by a
whitespace character.  Embeds the `for i in range(1, len(text))` loop of
`_start_locations` in `src/post_processors/remove_overlap.py`. -/
def startLocsAux (idx : Nat) (prev : Char) : List Char → List Nat
  | [] => []
  | c :: cs =>
    (if pyIsSpace prev ∧ ¬ pyIsSpace c then [idx] else []) ++
      startLocsAux (idx + 1) c cs

/-- Embeds `_start_locations` (`src/post_processors/remove_overlap.py`):
index 0 when the text starts with a non-whitespace character, plus every
index whose character is non-whitespace and whose predecessor is
whitespace.  The result is produced in increasing index order. -/
def startLocations : List Char → List Nat
  | [] => []
  | c :: cs => (if ¬ pyIsSpace c then [0] else []) ++ startLocsAux 1 c cs

/-- Embeds Python `s.replace(sub, "", 1)`: delete the first (leftmost)
occurrence of `sub` from `s`; `s` unchanged when `sub` does not occur. -/
def replaceFirstEmpty (sub : List Char) : List Char → List Char
  | [] => []
  | c :: cs =>
    if startsWithB sub (c :: cs) then (c :: cs).drop sub.length
    else c :: replaceFirstEmpty sub cs

/-- The `while starts: idx = starts.pop()` loop of
`_remove_word_overlap_prefix`: `idxs` is the list of start locations in the
order `pop()` visits them (last element of the Python list first).  For the
first index whose tail of `pre` is a leading segment of the trimmed
completion, that tail is deleted; if none matches the original completion
is returned. -/
def rwopLoop (pre rightTrimmed completion : List Char) : List Nat → List Char
  | [] => completion
  | idx :: rest =>
    let leftSub := pre.drop idx
    if startsWithB leftSub rightTrimmed then replaceFirstEmpty leftSub rightTrimmed
    else rwopLoop pre rightTrimmed completion rest

/-- Embeds `_remove_word_overlap_prefix` of
`src/post_processors/remove_overlap.py` (`pre` is the Python `prefix`
argument).  Python's `starts.pop()` removes from the END of the ascending
start-location list, so the scan runs from the largest start index (the
shortest tail) toward the smallest. -/
def removeWordOverlapPre (pre completion : List Char) : List Char :=
  rwopLoop pre (lstripPy completion) completion (startLocations pre).reverse

/-- The `while starts` loop of `_remove_word_overlap_suffix`, again with the
start locations in `pop()` order. -/
def rwosLoop (completion sufTrimmed : List Char) : List Nat → List Char
  | [] => completion
  | idx :: rest =>
    let compSub := completion.drop idx
    if startsWithB compSub sufTrimmed then completion.take idx
    else rwosLoop completion sufTrimmed rest

/-- Embeds `_remove_word_overlap_suffix` of
`src/post_processors/remove_overlap.py` (`suf` is the Python `suffix`
argument; `_remove_leading_ws` is the same whitespace-dropping loop as
`lstrip`). -/
def removeWordOverlapSuf (completion suf : List Char) : List Char :=
  rwosLoop completion (lstripPy suf) (startLocations completion).reverse

/-- The character-peeling loop of `_remove_ws_overlap_prefix`: `revPre` is
the reversed Python `prefix`, walked in step with the front of the
completion. -/
def rwspLoop : List Char → List Char → List Char
  | [], comp => comp
  | _ :: _, [] => []
  | p :: ps, c :: cs => if c = p then rwspLoop ps cs else c :: cs

/-- Embeds `_remove_ws_overlap_prefix` of
`src/post_processors/remove_overlap.py`: while the last unconsumed
character of the Python `prefix` equals the first character of the
completion, peel the completion's front. -/
def removeWsOverlapPre (pre completion : List Char) : List Char :=
  rwspLoop pre.reverse completion

/-- The character-peeling loop of `_remove_ws_overlap_suffix`, acting on the
reversed completion so the peeling is from its back. -/
def rwssLoop : List Char → List Char → List Char
  | [], rcomp => rcomp
  | _ :: _, [] => []
  | s :: ss, c :: cs => if c = s then rwssLoop ss cs else c :: cs

/-- Embeds `_remove_ws_overlap_suffix` of
`src/post_processors/remove_overlap.py`: while the first unconsumed
character of the Python `suffix` equals the last character of the
completion, peel the completion's back. -/
def removeWsOverlapSuf (completion suf : List Char) : List Char :=
  (rwssLoop suf completion.reverse).reverse

/-- The context classes of `src/context_detection.py` (`class Context`). -/
inductive Context where
  | Text | Heading | BlockQuotes | UnorderedList
  | NumberedList | CodeBlock | MathBlock | TaskList
  deriving DecidableEq, Repr

/-- Embeds `RemoveOverlap.process` of
`src/post_processors/remove_overlap.py`: the four overlap-removal steps
applied in source order (the context argument is accepted and unused, as in
the source). -/
def removeOverlapProcess (pre suf completion : List Char) (_ctx : Context) : List Char :=
  removeWsOverlapSuf
    (removeWsOverlapPre pre
      (removeWordOverlapSuf (removeWordOverlapPre pre completion) suf)) suf

/-! ### post_processors/remove_whitespace.py -/

/-- Embeds the `context in {...}` membership test of
`RemoveWhitespace.process` (`src/post_processors/remove_whitespace.py`):
true for Text, Heading, MathBlock, TaskList, NumberedList, UnorderedList
and false for CodeBlock and BlockQuotes. -/
def wsContexts : Context → Bool
  | .Text => true
  | .Heading => true
  | .MathBlock => true
  | .TaskList => true
  | .NumberedList => true
  | .UnorderedList => true
  | .CodeBlock => false
  | .BlockQuotes => false

/-- Embeds Python `prefix.endswith((" ", "\t", "\n"))`. -/
def endsWithWsTrigger (pre : List Char) : Bool :=
  match pre.getLast? with
  | some c => c = ' ' ∨ c = '\t' ∨ c = '\n'
  | none => false

/-- Embeds Python `suffix[:1] in {".", ",", ";", ":", "!", "?", ")", "]",
"}", "»", "”"}`. -/
def sufPunctTrigger (suf : List Char) : Bool :=
  match suf.head? with
  | some c =>
    c = '.' ∨ c = ',' ∨ c = ';' ∨ c = ':' ∨ c = '!' ∨ c = '?' ∨
    c = ')' ∨ c = ']' ∨ c = '}' ∨ c = '»' ∨ c = '”'
  | none => false

/-- Embeds `RemoveWhitespace.process` of
`src/post_processors/remove_whitespace.py`. -/
def removeWhitespaceProcess (pre suf completion : List Char) (ctx : Context) : List Char :=
  if wsContexts ctx then
    let c1 := if endsWithWsTrigger pre ∨ startsWithB ("\n".toList) suf
              then lstripPy completion else completion
    if sufPunctTrigger suf then rstripPy c1 else c1
  else completion


/-! ### context_detection.py

`get_context` inserts the process-wide random 16-hex-character sentinel
`UNIQUE_CURSOR` between the two cursor halves and tests a fixed sequence of
regular expressions over the merged text.  The embedding is parameterized
by the sentinel `cur`; each specific regex is embedded as an executable
matcher implementing exactly that pattern's Python `re` semantics.

The `^`-anchored patterns are tried (per `re.M`) from the start of the text
and from just after every newline, on the whole remaining text — NOT line
by line — because every `\s` and `\s*` in them also matches newlines: e.g.
`TASK_LIST_REGEX`'s `\s` after `\[.\]` may be a newline, so a match can
span two lines.  Only the trailing `.*CUR.*$` is confined to a single line
(`.` does not match newlines and `$` stops at the line end).  Backtracking
is resolved away where the pattern is deterministic: a `\s*`/`#+`/digit-run
must stop exactly at the first character its successor token can match,
because that successor (a marker, `.`-dot, or one `\s`) never matches the
run's own characters.
-/

/-- Embeds the trailing `.*CUR.*$` of the line-anchored patterns: the
sentinel occurs in the remaining text BEFORE the next newline (`.` does not
match `\n`, and `$` matches at the line end, imposing nothing further). -/
def curInLine (cur rest : List Char) : Bool :=
  isSubstrB cur (rest.takeWhile (fun c => ¬ (c = '\n')))

/-- The suffixes of the text starting just after each newline — together
with the whole text, the positions where `re.M` anchors `^`. -/
def lineStartSuffixesAux : List Char → List (List Char)
  | [] => []
  | c :: cs =>
    if c = '\n' then cs :: lineStartSuffixesAux cs else lineStartSuffixesAux cs

/-- All `^`-anchored starting positions of the text under `re.M`, each with
the whole remaining text (so a match may run past the anchor's own
line). -/
def lineStartSuffixes (t : List Char) : List (List Char) :=
  t :: lineStartSuffixesAux t

/-- Embeds Python `\d` for the `str` patterns of `re`: a Unicode decimal
digit (general category Nd, Unicode 15.0 — the table CPython 3.12
ships). -/
def pyIsDecDigit (c : Char) : Bool :=
  [(0x30, 0x39), (0x660, 0x669), (0x6f0, 0x6f9), (0x7c0, 0x7c9),
   (0x966, 0x96f), (0x9e6, 0x9ef), (0xa66, 0xa6f), (0xae6, 0xaef),
   (0xb66, 0xb6f), (0xbe6, 0xbef), (0xc66, 0xc6f), (0xce6, 0xcef),
   (0xd66, 0xd6f), (0xde6, 0xdef), (0xe50, 0xe59), (0xed0, 0xed9),
   (0xf20, 0xf29), (0x1040, 0x1049), (0x1090, 0x1099), (0x17e0, 0x17e9),
   (0x1810, 0x1819), (0x1946, 0x194f), (0x19d0, 0x19d9), (0x1a80, 0x1a89),
   (0x1a90, 0x1a99), (0x1b50, 0x1b59), (0x1bb0, 0x1bb9), (0x1c40, 0x1c49),
   (0x1c50, 0x1c59), (0xa620, 0xa629), (0xa8d0, 0xa8d9), (0xa900, 0xa909),
   (0xa9d0, 0xa9d9), (0xa9f0, 0xa9f9), (0xaa50, 0xaa59), (0xabf0, 0xabf9),
   (0xff10, 0xff19), (0x104a0, 0x104a9), (0x10d30, 0x10d39),
   (0x11066, 0x1106f), (0x110f0, 0x110f9), (0x11136, 0x1113f),
   (0x111d0, 0x111d9), (0x112f0, 0x112f9), (0x11450, 0x11459),
   (0x114d0, 0x114d9), (0x11650, 0x11659), (0x116c0, 0x116c9),
   (0x11730, 0x11739), (0x118e0, 0x118e9), (0x11950, 0x11959),
   (0x11c50, 0x11c59), (0x11d50, 0x11d59), (0x11da0, 0x11da9),
   (0x11f50, 0x11f59), (0x16a60, 0x16a69), (0x16ac0, 0x16ac9),
   (0x16b50, 0x16b59), (0x1d7ce, 0x1d7ff), (0x1e140, 0x1e149),
   (0x1e2f0, 0x1e2f9), (0x1e4f0, 0x1e4f9), (0x1e950, 0x1e959),
   (0x1fbf0, 0x1fbf9)].any (fun r => r.1 ≤ c.toNat ∧ c.toNat ≤ r.2)

/-- Matches `HEADER_REGEX = ^#+\s.*CUR.*$` after its leading `#`: consume
further `#`s, then one whitespace character — possibly a newline — then the
sentinel within the line that follows that character. -/
def headerAfterHash (cur : List Char) : List Char → Bool
  | [] => false
  | c :: cs => if c = '#' then headerAfterHash cur cs
               else pyIsSpace c && curInLine cur cs

/-- Embeds `HEADER_REGEX` (`src/context_detection.py`) at one anchored
position: a `#` first, then `headerAfterHash`. -/
def headerAt (cur : List Char) : List Char → Bool
  | '#' :: cs => headerAfterHash cur cs
  | _ => false

/-- Embeds `BLOCK_QUOTES_REGEX = ^\s*>.*CUR.*$` at one anchored position:
skip whitespace (newlines included), then a `>`, then the sentinel in the
rest of the `>`'s line. -/
def bqAt (cur : List Char) : List Char → Bool
  | [] => false
  | c :: cs => if pyIsSpace c then bqAt cur cs
               else c = '>' && curInLine cur cs

/-- The `\[.\]\s.*CUR.*$` tail of the task-list pattern: a bracketed single
non-newline character (`.` does not match `\n`), ONE whitespace character —
possibly a newline — then the sentinel within the following line. -/
def taskBox (cur : List Char) : List Char → Bool
  | '[' :: x :: ']' :: d :: cs =>
    ¬ (x = '\n') && pyIsSpace d && curInLine cur cs
  | _ => false

/-- The ` +` separator of `TASK_LIST_REGEX`: one or more literal spaces
(only `U+0020`) before the checkbox. -/
def taskSpaces (cur : List Char) : List Char → Bool
  | [] => false
  | c :: cs => if c = ' ' then taskSpaces cur cs || taskBox cur (c :: cs) else taskBox cur (c :: cs)

/-- The `[0-9]+\.` alternative of the task-list marker (explicit ASCII
digit class): consume digits then require a dot and at least one space. -/
def taskDigits (cur : List Char) : List Char → Bool
  | [] => false
  | c :: cs =>
    if c.isDigit then taskDigits cur cs
    else c = '.' && (match cs with
                     | ' ' :: cs' => taskSpaces cur cs'
                     | _ => false)

/-- Embeds `TASK_LIST_REGEX = ^\s*(-|[0-9]+\.) +\[.\]\s.*CUR.*$` at one
anchored position (leading `\s*` may cross newlines). -/
def taskAt (cur : List Char) : List Char → Bool
  | [] => false
  | c :: cs =>
    if pyIsSpace c then taskAt cur cs
    else if c = '-' then (match cs with
                          | ' ' :: cs' => taskSpaces cur cs'
                          | _ => false)
    else if c.isDigit then taskDigits cur cs
    else false

/-- After the digits of `NUMBERED_LIST_REGEX = ^\s*\d+\.\s.*CUR.*$`:
consume decimal digits (Unicode `\d`), then a dot, ONE whitespace character
— possibly a newline — then the sentinel within the following line. -/
def numberedDigits (cur : List Char) : List Char → Bool
  | [] => false
  | c :: cs =>
    if pyIsDecDigit c then numberedDigits cur cs
    else c = '.' && (match cs with
                     | d :: cs' => pyIsSpace d && curInLine cur cs'
                     | [] => false)

/-- Embeds `NUMBERED_LIST_REGEX` at one anchored position. -/
def numberedAt (cur : List Char) : List Char → Bool
  | [] => false
  | c :: cs =>
    if pyIsSpace c then numberedAt cur cs
    else if pyIsDecDigit c then numberedDigits cur cs
    else false

/-- Embeds `UNORDERED_LIST_REGEX = ^\s*(-|\*)\s.*CUR.*$` at one anchored
position: the `\s` after the marker may be a newline, with the sentinel
then on the next line. -/
def unorderedAt (cur : List Char) : List Char → Bool
  | [] => false
  | c :: cs =>
    if pyIsSpace c then unorderedAt cur cs
    else if c = '-' ∨ c = '*' then
      (match cs with
       | d :: cs' => pyIsSpace d && curInLine cur cs'
       | [] => false)
    else false

/-- Index of the first occurrence of `pat` in `s` (Python `s.find(pat)` /
the leftmost position where the `re` scan can match a literal). -/
def findSub (pat : List Char) : List Char → Option Nat
  | [] => if pat.isEmpty then some 0 else none
  | c :: cs =>
    if startsWithB pat (c :: cs) then some 0
    else (findSub pat cs).map (· + 1)

/-- Embeds `re.findall` for the delimiter-pair patterns
`\$\$[\s\S]*?\$\$`, `\$[\s\S]*?\$` and ` ```[\s\S]*?``` `: repeatedly find
the leftmost opening delimiter, then (non-greedy) the earliest closing
delimiter after it; each match runs from opener to closer inclusive, and
scanning resumes after the match (matches never overlap).  `fuel` bounds
the recursion by the text length. -/
def scanBlocks (delim : List Char) : Nat → List Char → List (List Char)
  | 0, _ => []
  | fuel + 1, t =>
    match findSub delim t with
    | none => []
    | some i =>
      let afterOpen := t.drop (i + delim.length)
      match findSub delim afterOpen with
      | none => []
      | some j =>
        (t.drop i).take (delim.length + j + delim.length) ::
          scanBlocks delim fuel (afterOpen.drop (j + delim.length))

/-- Embeds `_is_cursor_in_regex_block` (`src/context_detection.py`) for a
delimiter-pair pattern: some found block contains the sentinel. -/
def cursorInDelimBlocks (delim cur text : List Char) : Bool :=
  (scanBlocks delim (text.length + 1) text).any (fun b => isSubstrB cur b)

/-- One-line matcher for `INLINE_CODE_BLOCK_REGEX` (a backtick-delimited
greedy span): since `.` excludes newlines and `.*` is greedy, the single
match on a line with at least two backticks runs from the first backtick to
the last one. -/
def inlineCodeLineSeg (line : List Char) : Option (List Char) :=
  match findSub ("`".toList) line with
  | none => none
  | some f =>
    let rest := line.drop (f + 1)
    match findSub ("`".toList) rest.reverse with
    | none => none
    | some k => some ((line.drop f).take (rest.length - k + 1))

/-- Sentinel-in-inline-code test over the whole text. -/
def inlineCodeCursor (cur text : List Char) : Bool :=
  (splitLinesCh text).any (fun l =>
    match inlineCodeLineSeg l with
    | some seg => isSubstrB cur seg
    | none => false)

/-- The merged text `prefix + UNIQUE_CURSOR + suffix` built by
`get_context`; `pre`/`suf` are the Python `prefix`/`suffix`. -/
def mergedText (cur pre suf : List Char) : List Char := pre ++ cur ++ suf

/-- Embeds `re.search(HEADER_REGEX, text, re.M)` being truthy: the pattern
matches at some `^`-anchored position of the merged text. -/
def headerFound (cur pre suf : List Char) : Bool :=
  (lineStartSuffixes (mergedText cur pre suf)).any (headerAt cur)

/-- Embeds `re.search(BLOCK_QUOTES_REGEX, text, re.M)` being truthy. -/
def bqFound (cur pre suf : List Char) : Bool :=
  (lineStartSuffixes (mergedText cur pre suf)).any (bqAt cur)

/-- Embeds `re.search(TASK_LIST_REGEX, text, re.M)` being truthy. -/
def taskFound (cur pre suf : List Char) : Bool :=
  (lineStartSuffixes (mergedText cur pre suf)).any (taskAt cur)

/-- Embeds `re.search(NUMBERED_LIST_REGEX, text, re.M)` being truthy. -/
def numberedFound (cur pre suf : List Char) : Bool :=
  (lineStartSuffixes (mergedText cur pre suf)).any (numberedAt cur)

/-- Embeds `re.search(UNORDERED_LIST_REGEX, text, re.M)` being truthy. -/
def unorderedFound (cur pre suf : List Char) : Bool :=
  (lineStartSuffixes (mergedText cur pre suf)).any (unorderedAt cur)

/-- Sentinel inside a `$$ ... $$` block (`MATH_BLOCK_REGEX`). -/
def mathBlockCursor (cur pre suf : List Char) : Bool :=
  cursorInDelimBlocks ("$$".toList) cur (mergedText cur pre suf)

/-- Sentinel inside a `$ ... $` span (`INLINE_MATH_BLOCK_REGEX`). -/
def inlineMathCursor (cur pre suf : List Char) : Bool :=
  cursorInDelimBlocks ("$".toList) cur (mergedText cur pre suf)

/-- Sentinel inside a triple-backtick fenced block (`CODE_BLOCK_REGEX`). -/
def codeBlockCursor (cur pre suf : List Char) : Bool :=
  cursorInDelimBlocks ("```".toList) cur (mergedText cur pre suf)

/-- Sentinel inside an inline-code span (`INLINE_CODE_BLOCK_REGEX`). -/
def inlineCodeFound (cur pre suf : List Char) : Bool :=
  inlineCodeCursor cur (mergedText cur pre suf)

/-- Embeds `get_context` (`src/context_detection.py`): the fixed test
order Heading, BlockQuotes, TaskList, MathBlock (block or inline),
CodeBlock (fenced or inline), NumberedList, UnorderedList, Text; the first
matching test wins. -/
def getContext (cur pre suf : List Char) : Context :=
  if headerFound cur pre suf then .Heading
  else if bqFound cur pre suf then .BlockQuotes
  else if taskFound cur pre suf then .TaskList
  else if mathBlockCursor cur pre suf || inlineMathCursor cur pre suf then .MathBlock
  else if codeBlockCursor cur pre suf || inlineCodeFound cur pre suf then .CodeBlock
  else if numberedFound cur pre suf then .NumberedList
  else if unorderedFound cur pre suf then .UnorderedList
  else .Text

/-- A fixed 16-hex-character sentinel value, one possible draw of
`generate_random_string(16)` (`src/utils.py`), used for concrete
evaluations. -/
def curExample : List Char := "f3a9c1d07b24e685".toList


/-! ### cache.py — the `_SimpleTTL` fallback store

The store is a Python dict from key to `(value, expires_at)` with
`expires_at = time.time() + ttl` recorded at insertion; timestamps are
modeled as rationals.  `get` removes an entry and reports a miss exactly
when the lookup time is strictly past its expiry.
-/

/-- A `_SimpleTTL` store: the dict `self._d`, as an association list with at
most one binding per key. -/
def TTLStore := List (String × String × ℚ)

/-- Dict lookup `self._d.get(k, None)`. -/
def ttlLookup (k : String) (d : TTLStore) : Option (String × ℚ) :=
  (List.find? (fun e => e.1 = k) d).map (fun e => e.2)

/-- Embeds `_SimpleTTL.__setitem__` (`src/cache.py`): bind `k` to
`(v, now + ttl)`, replacing any previous binding. -/
def ttlSetItem (ttl now : ℚ) (k v : String) (d : TTLStore) : TTLStore :=
  (k, v, now + ttl) :: List.filter (fun e => ¬ (e.1 = k)) d

/-- Embeds `_SimpleTTL.get` (`src/cache.py`) at lookup time `now`: returns
the possibly-updated store and the lookup answer.  A missing key is a miss;
a binding with `now > expires_at` is popped and reported as a miss;
otherwise the stored value is returned and the store unchanged. -/
def ttlGet (now : ℚ) (k : String) (d : TTLStore) : TTLStore × Option String :=
  match ttlLookup k d with
  | none => (d, none)
  | some (v, exp) =>
    if now > exp then (List.filter (fun e => ¬ (e.1 = k)) d, none)
    else (d, some v)

/-! ### server.py — HTTP surface and request fingerprint -/

/-- The route table of the FastAPI app in `src/server.py`: one entry per
route decorator, in source order (`@app.post("/predict")`,
`@app.get("/health")`, `@app.get("/config")`, `@app.get("/ui")`). -/
def appRoutes : List (String × String) :=
  [("POST", "/predict"), ("GET", "/health"), ("GET", "/config"), ("GET", "/ui")]

/-- The `U+241F SYMBOL FOR UNIT SEPARATOR` joining the two cursor-window
halves in `_req_key`. -/
def unitSep : Char := Char.ofNat 0x241f

/-- Embeds `_req_key` (`src/server.py`), parameterized by the hash
function: `provider:model:hash(prefix[-200:] + U+241F + suffix[:60])`.
Python `prefix[-200:]` keeps the last 200 characters (the whole string when
shorter), `suffix[:60]` the first 60.  The hash itself is `stable_hash`,
which `src/server.py` imports from `src/utils.py` but which is absent from
the source tree; modelled from the spec: a fixed (deterministic) function
of the windowed string, passed here as the parameter `h`. -/
def reqKey (h : List Char → List Char) (provider model pre suf : List Char) : List Char :=
  provider ++ [':'] ++ model ++ [':'] ++
    h ((pre.drop (pre.length - 200)) ++ [unitSep] ++ suf.take 60)

/-! ### utils.py `Result` and the scheduling-layer error path

`Result` (`src/utils.py`) carries either a value or a captured exception;
`PyExc` models the Python exception values that can cross layers, with
`timeoutExc` standing for the `asyncio.TimeoutError` raised by
`asyncio.wait_for` after 12 s.  A computation that may raise is an
`Except PyExc`; `Except.error` means the Python call raised.
-/

/-- Python exception values relevant to the /predict path. -/
inductive PyExc where
  | timeoutExc
  | runtimeErr (msg : String)
  deriving DecidableEq, Repr

/-- The `Result[str]` sum of `src/utils.py` (`ok(value)` / `err(error)`). -/
inductive ResultS where
  | ok (v : List Char)
  | err (e : PyExc)
  deriving DecidableEq, Repr

/-- Embeds `asyncio.wait_for(service.fetch_predictions(p, s), timeout=12.0)`
inside `runner` (`src/server.py`): when the upstream call exceeds 12 s the
awaited expression raises `asyncio.TimeoutError`; otherwise it yields
whatever `fetch_predictions` produced. -/
def waitForCall (timedOut : Bool) (fetched : Except PyExc ResultS) : Except PyExc ResultS :=
  if timedOut then .error .timeoutExc else fetched

/-- Embeds `SingleFlight.do` (`src/singleflight.py`) as observed by the
leader caller: a factory result is returned as is, and a factory exception
is stored on the shared future and re-raised (`fut.set_exception(e); raise`)
— it is not converted into a `Result`. -/
def singleFlightDo (factoryOutcome : Except PyExc ResultS) : Except PyExc ResultS :=
  factoryOutcome

/-- Embeds the tail of `runner` (`src/server.py`): from the single-flight
outcome, compute the response text (`res.value if res.is_ok() else ""`) and
whether the suggestion cache is written (`if text:`).  An exception from
the awaited call propagates: `runner` has no handler. -/
def runnerOutcome (sfOutcome : Except PyExc ResultS) : Except PyExc (List Char × Bool) :=
  match sfOutcome with
  | .error e => .error e
  | .ok r =>
    let text := match r with
                | .ok v => v
                | .err _ => []
    .ok (text, ¬ text.isEmpty)

/-- The /predict handler outcome for a request served by one `fn` cycle of
`LatestOnly.run` (`src/latest_only.py` line `result = await fn(p, s)`): an
exception raised by `fn` propagates out of `run` (the `async with lock`
body has no handler) and out of the route handler, so FastAPI answers with
an internal server error instead of a completion body. -/
def predictOutcome (timedOut : Bool) (fetched : Except PyExc ResultS) :
    Except PyExc (List Char × Bool) :=
  runnerOutcome (singleFlightDo (waitForCall timedOut fetched))

/-! ### prediction_services/inline_autocomplete.py — answer extraction,
post-processing chain, guardrails -/

/-- Embeds the default `chain_of_thought_removal_regex` value
`r"(?!)"` of `src/settings.py` (the field `_of_thought_removal_regex`,
commented `disabled (never matches)`): the empty negative lookahead fails
at every position, so `re.search` finds no match in any text. -/
def defaultCotMatches (_text : List Char) : Bool := false

/-- Embeds `re.sub` with the default pattern `(?!)`: a regex that matches
nowhere substitutes nothing, leaving the text unchanged. -/
def defaultCotSub (text : List Char) : List Char := text

/-- Embeds `InlineAutoCompleter._extract_answer`
(`src/prediction_services/inline_autocomplete.py`) with the default
settings regex: errors pass through; otherwise, if the regex does not match
the text is returned as is, else the matches are substituted away. -/
def extractAnswerDefault (r : ResultS) : ResultS :=
  match r with
  | .err e => .err e
  | .ok text =>
    if ¬ defaultCotMatches text then .ok text
    else .ok (defaultCotSub text)

/-- Embeds `re.sub(r"\n?\$\$\n?", "", completion)` in
`RemoveMathIndicators.process` (`src/post_processors/remove_math_indicators.py`):
scan left to right; at each position a match consumes an optional newline,
`$$`, and an optional trailing newline (both options greedy); otherwise the
character is kept and the scan advances. -/
def subMathDelim : List Char → List Char
  | '\n' :: '$' :: '$' :: '\n' :: rest => subMathDelim rest
  | '\n' :: '$' :: '$' :: rest => subMathDelim rest
  | '$' :: '$' :: '\n' :: rest => subMathDelim rest
  | '$' :: '$' :: rest => subMathDelim rest
  | c :: rest => c :: subMathDelim rest
  | [] => []

/-- Embeds `RemoveMathIndicators.process`: only in MathBlock context, strip
`$$` delimiters then every remaining `$` (`completion.replace("$", "")`). -/
def removeMathIndicatorsProcess (_pre _suf : List Char) (completion : List Char)
    (ctx : Context) : List Char :=
  if ctx = .MathBlock then
    (subMathDelim completion).filter (fun c => ¬ (c = '$'))
  else completion

/-- ASCII letter test for the fence language tag (`[a-zA-Z]`). -/
def isAsciiLetter (c : Char) : Bool :=
  ('a' ≤ c ∧ c ≤ 'z') ∨ ('A' ≤ c ∧ c ≤ 'Z')

/-- Space-or-tab test for the fence patterns (`[ \t]`). -/
def isSpaceTab (c : Char) : Bool := c = ' ' ∨ c = '\t'

/-- Embeds `re.sub(r"```[a-zA-Z]+[ \t]*\n?", "", completion)` in
`RemoveCodeIndicators.process`
(`src/post_processors/remove_code_indicators.py`): at a position starting
with a fence followed by at least one letter, consume the fence, the
language tag, trailing spaces/tabs and an optional newline; otherwise keep
the character and advance.  `fuel` bounds the scan by the text length. -/
def subFenceLang : Nat → List Char → List Char
  | 0, t => t
  | _ + 1, [] => []
  | fuel + 1, c :: cs =>
    if startsWithB ("```".toList) (c :: cs) ∧
        isAsciiLetter (((c :: cs).drop 3).headD ' ') then
      let afterTag := ((c :: cs).drop 3).dropWhile isAsciiLetter
      let afterWs := afterTag.dropWhile isSpaceTab
      match afterWs with
      | '\n' :: rest => subFenceLang fuel rest
      | rest => subFenceLang fuel rest
    else c :: subFenceLang fuel cs

/-- Embeds `re.sub(r"\n?```[ \t]*\n?", "", completion)`: an optional
leading newline, a bare fence, spaces/tabs, an optional trailing
newline. -/
def subFenceBare : Nat → List Char → List Char
  | 0, t => t
  | _ + 1, [] => []
  | fuel + 1, c :: cs =>
    if c = '\n' ∧ startsWithB ("```".toList) cs then
      let afterWs := (cs.drop 3).dropWhile isSpaceTab
      match afterWs with
      | '\n' :: rest => subFenceBare fuel rest
      | rest => subFenceBare fuel rest
    else if startsWithB ("```".toList) (c :: cs) then
      let afterWs := ((c :: cs).drop 3).dropWhile isSpaceTab
      match afterWs with
      | '\n' :: rest => subFenceBare fuel rest
      | rest => subFenceBare fuel rest
    else c :: subFenceBare fuel cs

/-- Embeds `RemoveCodeIndicators.process`: only in CodeBlock context, strip
the opening fence with language tag, any bare fence, then every remaining
backtick (`completion.replace("`", "")`). -/
def removeCodeIndicatorsProcess (_pre _suf : List Char) (completion : List Char)
    (ctx : Context) : List Char :=
  if ctx = .CodeBlock then
    ((subFenceBare (completion.length + 1)
        (subFenceLang (completion.length + 1) completion)).filter
      (fun c => ¬ (c = "`".toList.headD ' ')))
  else completion

/-- Embeds `InlineAutoCompleter._guardrails`
(`src/prediction_services/inline_autocomplete.py`): errors pass through; a
value that is empty after stripping, or that still contains the `<mask/>`
sentinel, becomes an error; otherwise the value is returned. -/
def guardrails (r : ResultS) : ResultS :=
  match r with
  | .err e => .err e
  | .ok v =>
    if (stripPy v).isEmpty then .err (.runtimeErr "Empty result")
    else if isSubstrB ("<mask/>".toList) v then .err (.runtimeErr "Mask in result")
    else .ok v

/-- Embeds `Result.map` (`src/utils.py`): apply `f` under `ok`, pass `err`
through. -/
def resultMap (f : List Char → List Char) : ResultS → ResultS
  | .ok v => .ok (f v)
  | .err e => .err e

/-- The post-upstream stage of `InlineAutoCompleter.fetch_predictions` with
the default settings (`from_settings`): chain-of-thought extraction with
the default regex, then the default post-processor list
`[RemoveMathIndicators, RemoveCodeIndicators, RemoveOverlap,
RemoveWhitespace]` mapped over the result with the context computed by
`get_context(prefix, suffix)`, then the guardrails. -/
def pipelineAfterUpstream (cur pre suf upstream : List Char) : ResultS :=
  let ctx := getContext cur pre suf
  guardrails
    (resultMap (fun c => removeWhitespaceProcess pre suf c ctx)
      (resultMap (fun c => removeOverlapProcess pre suf c ctx)
        (resultMap (fun c => removeCodeIndicatorsProcess pre suf c ctx)
          (resultMap (fun c => removeMathIndicatorsProcess pre suf c ctx)
            (extractAnswerDefault (.ok upstream))))))


/-! ### latest_only.py — `LatestOnly.run` as an event-driven machine

`LatestOnly.run` runs on a single asyncio event loop, so each coroutine
executes deterministically between its await points.  For one user the
observable behaviour is fixed by the order of two kinds of events:

* `arrive i c` — request `i` enters `run` with cursor context `c`.  The
  code stores `c` into `self._latest[user]`, registers a fresh future in
  `self._waiters[user]`, and then: if the user's lock is held the request
  suspends on its future; otherwise it acquires the lock synchronously
  (`asyncio.Lock.acquire` does not yield when uncontended), pops the latest
  context — necessarily `c`, just stored — and starts `fn` on it,
  suspending on the upstream await.
* `complete` — the in-flight `fn` call finishes with `fn c`.  The runner
  resolves every registered waiter future with this result (its own
  arrival future included), then pops the stored latest context if one
  appeared meanwhile and starts `fn` on it; with no stored context it
  breaks, resolves its own future if still pending, releases the lock and
  returns its local `result` variable — the value of the **last** `fn`
  call.

A request's HTTP response is the value `run` returns: for the lock holder
the final `result`, for the others the value their future was resolved
with.  `calls` records every dispatched `fn` context in order.

The claimed burst — five requests within 10 ms against a 200 ms upstream —
is the event order `arrive 1 .. arrive 5, complete, complete`: all five
arrivals precede the first completion, and the first arrival's synchronous
lock acquisition precedes the later arrivals.
-/

/-- A cursor context: the Python `(prefix, suffix)` pair. -/
def Ctx := String × String
deriving instance DecidableEq for Ctx

/-- The per-user coalescer state plus the observation log of one
`LatestOnly` history. -/
structure LOState where
  latest : Option Ctx
  waiters : List Nat
  lockHeld : Bool
  current : Option (Nat × Ctx)
  calls : List Ctx
  resolvedFuts : List (Nat × String)
  returned : List (Nat × String)
  deriving DecidableEq

/-- The empty `LatestOnly` state for one user: no stored context, no
waiters, lock free, nothing dispatched. -/
def loInit : LOState :=
  { latest := none, waiters := [], lockHeld := false, current := none,
    calls := [], resolvedFuts := [], returned := [] }

/-- Events of one user's `LatestOnly` history. -/
inductive LOEvent where
  | arrive (i : Nat) (c : Ctx)
  | complete

/-- One event step of the `LatestOnly.run` machine (see the section
comment for the correspondence with `src/latest_only.py`). -/
def loStep (fn : Ctx → String) (s : LOState) : LOEvent → LOState
  | .arrive i c =>
    let s := { s with latest := some c, waiters := s.waiters ++ [i] }
    if s.lockHeld then s
    else { s with lockHeld := true, latest := none,
                  current := some (i, c), calls := s.calls ++ [c] }
  | .complete =>
    match s.current with
    | none => s
    | some (i, c) =>
      let res := fn c
      let s := { s with
        resolvedFuts := s.resolvedFuts ++ s.waiters.map (fun w => (w, res)),
        waiters := [] }
      match s.latest with
      | some c2 => { s with latest := none, current := some (i, c2),
                            calls := s.calls ++ [c2] }
      | none => { s with current := none, lockHeld := false,
                         returned := s.returned ++ [(i, res)] }

/-- Run a `LatestOnly` event history from the initial state. -/
def loRun (fn : Ctx → String) (events : List LOEvent) : LOState :=
  events.foldl (loStep fn) loInit

/-- The event order of the claimed five-request burst: prefixes
`"a".."abcde"`, empty suffixes, all arrivals inside the first upstream
call, then the two upstream completions. -/
def burstEvents : List LOEvent :=
  [.arrive 1 ("a", ""), .arrive 2 ("ab", ""), .arrive 3 ("abc", ""),
   .arrive 4 ("abcd", ""), .arrive 5 ("abcde", ""), .complete, .complete]

/-- The HTTP response of request `i` in a finished history: the returned
value when `i` ran the dispatch loop, otherwise the value its waiter
future was resolved with. -/
def loResponse (s : LOState) (i : Nat) : Option String :=
  match List.find? (fun e => e.1 = i) s.returned with
  | some e => some e.2
  | none => (List.find? (fun e => e.1 = i) s.resolvedFuts).map (fun e => e.2)


/-! ### Specification-side definitions used for refinement comparisons -/

/-- Modelled from the spec's words for the word-overlap-with-prefix step: a
"word boundary" of the first cursor half is index 0 or any position whose
preceding character is whitespace. -/
def claimBoundary (pre : List Char) (i : Nat) : Bool :=
  if i = 0 then true
  else match pre.get? (i - 1) with
       | some c => pyIsSpace c
       | none => false

/-- Modelled from the spec's words: the word-boundary positions of `pre`
whose tail matches a leading segment of the whitespace-trimmed
completion. -/
def claimMatchIdxs (pre comp : List Char) : List Nat :=
  (List.range pre.length).filter
    (fun i => claimBoundary pre i ∧ startsWithB (pre.drop i) (lstripPy comp))

/-- Modelled from the spec's words for the word-overlap-with-prefix step
(claim C5): delete from the completion the LARGEST matching tail — the one
starting at the smallest matching word-boundary position; return the
completion unchanged when no tail matches. -/
def claimLargestTailRemoval (pre comp : List Char) : List Char :=
  match (claimMatchIdxs pre comp).min? with
  | some i => (lstripPy comp).drop (pre.length - i)
  | none => comp

/-- `m` occurs as one contiguous segment of `c`. -/
def SubSeg (m c : List Char) : Prop := ∃ l r, c = l ++ m ++ r

/-- The upstream response of the spec's chain-of-thought scenario. -/
def thinkStr : List Char :=
  "<think>planning</think><final_answer>hi</final_answer>".toList

/-- A first cursor half of 201 characters for concrete fingerprint
evaluations: its last 200 characters are all `a`. -/
def farPre1 : List Char := 'b' :: List.replicate 200 'a'

/-- A second cursor half differing from `farPre1` only at distance > 200
from the cursor. -/
def farPre2 : List Char := 'c' :: 'd' :: List.replicate 200 'a'

/-- A second cursor-suffix of 61 characters: first 60 are all `x`. -/
def farSuf1 : List Char := List.replicate 60 'x' ++ ['q']

/-- Differs from `farSuf1` only beyond the first 60 characters. -/
def farSuf2 : List Char := List.replicate 60 'x' ++ ['r', 's']

/-! ## Helper lemmas -/

/-- Deleting the first occurrence of a pattern that the string starts with
just drops the pattern's length from the front. -/
theorem replaceFirstEmpty_of_startsWith (sub s : List Char)
    (h : startsWithB sub s = true) :
    replaceFirstEmpty sub s = s.drop sub.length := by
  cases s with
  | nil =>
    cases sub with
    | nil => simp [replaceFirstEmpty]
    | cons a as => simp [startsWithB] at h
  | cons c cs => simp [replaceFirstEmpty, h]

/-- The pop-scan of `_remove_word_overlap_prefix` returns the trimmed
completion minus the tail at the FIRST index of the scan list whose tail
matches, and the untouched completion when none matches. -/
theorem rwopLoop_filter (pre t comp : List Char) (l : List Nat) :
    rwopLoop pre t comp l =
      match (l.filter (fun i => startsWithB (pre.drop i) t)).head? with
      | some i => t.drop (pre.length - i)
      | none => comp := by
  induction l with
  | nil => simp [rwopLoop]
  | cons i rest ih =>
    cases h : startsWithB (pre.drop i) t with
    | true =>
      simp [rwopLoop, h, replaceFirstEmpty_of_startsWith _ _ h, List.length_drop]
    | false => simp [rwopLoop, h, ih]

/-- `SubSeg` is reflexive. -/
theorem subSeg_refl (l : List Char) : SubSeg l l := ⟨[], [], by simp⟩

/-- `SubSeg` is transitive. -/
theorem subSeg_trans {a b c : List Char} (h1 : SubSeg a b) (h2 : SubSeg b c) :
    SubSeg a c := by
  obtain ⟨l1, r1, rfl⟩ := h1
  obtain ⟨l2, r2, rfl⟩ := h2
  exact ⟨l2 ++ l1, r1 ++ r2, by simp⟩

/-- Dropping from the front yields a contiguous segment. -/
theorem drop_subSeg (l : List Char) (n : Nat) : SubSeg (l.drop n) l :=
  ⟨l.take n, [], by simp⟩

/-- Taking from the front yields a contiguous segment. -/
theorem take_subSeg (l : List Char) (n : Nat) : SubSeg (l.take n) l :=
  ⟨[], l.drop n, by simp⟩

/-- The left-trimmed string is a contiguous segment of the original. -/
theorem lstrip_subSeg (l : List Char) : SubSeg (lstripPy l) l :=
  ⟨l.takeWhile pyIsSpace, [], by simp [lstripPy, List.takeWhile_append_dropWhile]⟩

/-- A segment of a list is a segment of the list with one more leading
element. -/
theorem subSeg_cons {m cs : List Char} (c : Char) (h : SubSeg m cs) :
    SubSeg m (c :: cs) := by
  obtain ⟨l, r, rfl⟩ := h
  exact ⟨c :: l, r, rfl⟩

/-- Reversal preserves contiguous segments. -/
theorem subSeg_reverse {m c : List Char} (h : SubSeg m c) :
    SubSeg m.reverse c.reverse := by
  obtain ⟨l, r, rfl⟩ := h
  exact ⟨r.reverse, l.reverse, by simp⟩

/-- The word-overlap-with-prefix step returns a contiguous segment of the
completion. -/
theorem removeWordOverlapPre_subSeg (pre comp : List Char) :
    SubSeg (removeWordOverlapPre pre comp) comp := by
  rw [removeWordOverlapPre, rwopLoop_filter]
  cases hl : (((startLocations pre).reverse).filter
      (fun i => startsWithB (pre.drop i) (lstripPy comp))).head? with
  | none => exact subSeg_refl comp
  | some i => exact subSeg_trans (drop_subSeg _ _) (lstrip_subSeg comp)

/-- The pop-scan of `_remove_word_overlap_suffix` returns a contiguous
segment of the completion. -/
theorem rwosLoop_subSeg (comp st : List Char) (l : List Nat) :
    SubSeg (rwosLoop comp st l) comp := by
  induction l with
  | nil => exact subSeg_refl comp
  | cons i rest ih =>
    cases h : startsWithB (comp.drop i) st with
    | true => simp only [rwosLoop, h, if_true]; exact take_subSeg comp i
    | false => simpa only [rwosLoop, h, if_false] using ih

/-- The peel loop of `_remove_ws_overlap_prefix` returns a contiguous
segment (in fact a tail) of the completion. -/
theorem rwspLoop_subSeg (ps comp : List Char) : SubSeg (rwspLoop ps comp) comp := by
  induction ps generalizing comp with
  | nil => exact subSeg_refl comp
  | cons p ps ih =>
    cases comp with
    | nil => exact subSeg_refl []
    | cons c cs =>
      by_cases h : c = p
      · simpa only [rwspLoop, if_pos h] using subSeg_cons c (ih cs)
      · simp only [rwspLoop, if_neg h]; exact subSeg_refl _

/-- The peel loop of `_remove_ws_overlap_suffix` returns a contiguous
segment of the reversed completion. -/
theorem rwssLoop_subSeg (ss rcomp : List Char) : SubSeg (rwssLoop ss rcomp) rcomp := by
  induction ss generalizing rcomp with
  | nil => exact subSeg_refl rcomp
  | cons s ss ih =>
    cases rcomp with
    | nil => exact subSeg_refl []
    | cons c cs =>
      by_cases h : c = s
      · simpa only [rwssLoop, if_pos h] using subSeg_cons c (ih cs)
      · simp only [rwssLoop, if_neg h]; exact subSeg_refl _

/-- `_remove_word_overlap_suffix` returns a contiguous segment. -/
theorem removeWordOverlapSuf_subSeg (comp suf : List Char) :
    SubSeg (removeWordOverlapSuf comp suf) comp :=
  rwosLoop_subSeg comp (lstripPy suf) _

/-- `_remove_ws_overlap_prefix` returns a contiguous segment. -/
theorem removeWsOverlapPre_subSeg (pre comp : List Char) :
    SubSeg (removeWsOverlapPre pre comp) comp :=
  rwspLoop_subSeg pre.reverse comp

/-- `_remove_ws_overlap_suffix` returns a contiguous segment. -/
theorem removeWsOverlapSuf_subSeg (comp suf : List Char) :
    SubSeg (removeWsOverlapSuf comp suf) comp := by
  have h := subSeg_reverse (rwssLoop_subSeg suf comp.reverse)
  rwa [List.reverse_reverse] at h

/-- `RemoveOverlap.process` always returns a contiguous segment of its
input completion. -/
theorem removeOverlapProcess_subSeg (pre suf c : List Char) (ctx : Context) :
    SubSeg (removeOverlapProcess pre suf c ctx) c :=
  subSeg_trans (removeWsOverlapSuf_subSeg _ suf)
    (subSeg_trans (removeWsOverlapPre_subSeg pre _)
      (subSeg_trans (removeWordOverlapSuf_subSeg _ suf)
        (removeWordOverlapPre_subSeg pre c)))

/-! ## Claim theorems -/

/-- Claim C1, counterexample: in the claimed burst (five requests with
prefixes `a`..`abcde` arriving while the first 200 ms upstream call is in
flight), with the upstream completion function returning the called prefix
itself, at most two upstream calls are issued and the final call carries
`abcde`, but request 2's HTTP response is the completion for `a`, not for
`abcde` — so "all five HTTP responses return a completion for abcde" is
false of the code. -/
theorem latestOnly_burst_counterexample :
    (loRun (fun c => c.1) burstEvents).calls.length ≤ 2 ∧
    (loRun (fun c => c.1) burstEvents).calls.getLast? = some ("abcde", "") ∧
    loResponse (loRun (fun c => c.1) burstEvents) 2 = some "a" ∧
    some "a" ≠ some "abcde" := by decide

/-- Claim C1, amended: in the burst, exactly two upstream calls are issued
(`a` then `abcde`, so the final call carries `abcde`); the FIRST request —
the one that ran the dispatch loop — returns the completion for `abcde`,
while the four requests that arrived during the first cycle are resolved
with that first cycle's result, the completion for `a`. -/
theorem latestOnly_burst (fn : Ctx → String) :
    (loRun fn burstEvents).calls = [("a", ""), ("abcde", "")] ∧
    loResponse (loRun fn burstEvents) 1 = some (fn ("abcde", "")) ∧
    loResponse (loRun fn burstEvents) 2 = some (fn ("a", "")) ∧
    loResponse (loRun fn burstEvents) 3 = some (fn ("a", "")) ∧
    loResponse (loRun fn burstEvents) 4 = some (fn ("a", "")) ∧
    loResponse (loRun fn burstEvents) 5 = some (fn ("a", "")) :=
  ⟨rfl, rfl, rfl, rfl, rfl, rfl⟩

/-- Claim C2: when the upstream call exceeds 12 s, `asyncio.wait_for`
raises `asyncio.TimeoutError`; neither `SingleFlight.do` (which re-raises)
nor `runner` nor `LatestOnly.run` converts it to a `Result`-error, so the
exception crosses the scheduling layer and no empty-completion body is
produced (and nothing is cached, the cache write being unreachable).  By
contrast a captured upstream `Result`-error without timeout does produce
the empty completion with no cache write. -/
theorem predict_timeout_raises :
    (∀ fetched, predictOutcome true fetched = .error .timeoutExc) ∧
    (∀ fetched, predictOutcome true fetched ≠ .ok ([], false)) ∧
    predictOutcome false (.ok (.err (.runtimeErr "upstream 500"))) = .ok ([], false) := by
  refine ⟨fun fetched => rfl, fun fetched h => ?_, rfl⟩
  simp [predictOutcome, waitForCall, singleFlightDo, runnerOutcome] at h

/-- Claim C3, counterexample: the FastAPI app of `src/server.py` registers
no `POST /predict/stream` route. -/
theorem no_predict_stream_route : ("POST", "/predict/stream") ∉ appRoutes := by
  decide

/-- Claim C3, amended: the HTTP surface consists of exactly
`POST /predict`, `GET /health`, `GET /config` and `GET /ui`; no route with
path `/predict/stream` (and hence no SSE endpoint) is exposed. -/
theorem appRoutes_exact :
    appRoutes = [("POST", "/predict"), ("GET", "/health"),
                 ("GET", "/config"), ("GET", "/ui")] ∧
    ∀ r ∈ appRoutes, r.2 ≠ "/predict/stream" := by
  exact ⟨rfl, by decide⟩

/-- Claim C4, counterexample: with the default configuration's
chain-of-thought removal regex `(?!)` (which never matches), the example
upstream response passes through `_extract_answer` and the whole
post-processing pipeline unchanged, so the emitted completion is the full
`<think>planning</think><final_answer>hi</final_answer>` string — not
`hi`. -/
theorem default_cot_passthrough_counterexample :
    extractAnswerDefault (.ok thinkStr) = .ok thinkStr ∧
    pipelineAfterUpstream curExample [] [] thinkStr = .ok thinkStr ∧
    thinkStr ≠ "hi".toList := by
  refine ⟨rfl, by decide, by decide⟩

/-- Claim C4, amended: the default chain-of-thought removal regex is
`(?!)`, which matches nothing, so `_extract_answer` is the identity on
every result and the pipeline emits the example upstream response in
full. -/
theorem default_cot_is_disabled :
    (∀ r, extractAnswerDefault r = r) ∧
    pipelineAfterUpstream curExample [] [] thinkStr = .ok thinkStr := by
  refine ⟨fun r => ?_, by decide⟩
  cases r <;> rfl

/-- Claim C5, counterexample: for the Python prefix `"ab ab"` and
completion `"ab ab x"`, the largest word-boundary tail matching a leading
segment of the completion is `"ab ab"` (so the claim demands `" x"`), but
`_remove_word_overlap_prefix` deletes only `"ab"` — the tail at the LAST
matching start location, i.e. the smallest one — returning `" ab x"`. -/
theorem word_overlap_not_largest :
    claimLargestTailRemoval "ab ab".toList "ab ab x".toList = " x".toList ∧
    removeWordOverlapPre "ab ab".toList "ab ab x".toList = " ab x".toList ∧
    " x".toList ≠ " ab x".toList := by decide

/-- Claim C5, amended: `_remove_word_overlap_prefix` deletes from the
leading-whitespace-trimmed completion the tail of the prefix starting at
the LAST word-boundary start location whose tail matches a leading segment
of the trimmed completion (the smallest matching tail, since start
locations ascend); when no such tail exists the completion is returned
unchanged. -/
theorem word_overlap_removes_last_match (pre comp : List Char) :
    removeWordOverlapPre pre comp =
      match ((startLocations pre).filter
          (fun i => startsWithB (pre.drop i) (lstripPy comp))).getLast? with
      | some i => (lstripPy comp).drop (pre.length - i)
      | none => comp := by
  rw [removeWordOverlapPre, rwopLoop_filter, List.filter_reverse, List.head?_reverse]

/-- Claim C6, counterexample: with Python prefix `"ab"`, empty suffix and
completion `"bab"`, one application of `RemoveOverlap.process` yields
`"b"` but a second application yields `""`: the processor is not
idempotent. -/
theorem removeOverlap_not_idempotent :
    removeOverlapProcess "ab".toList [] "bab".toList .Text = "b".toList ∧
    removeOverlapProcess "ab".toList []
      (removeOverlapProcess "ab".toList [] "bab".toList .Text) .Text = [] ∧
    ([] : List Char) ≠ "b".toList := by decide

/-- Claim C6, amended: `RemoveOverlap.process` always returns a contiguous
segment of its input completion, so the second application returns a
contiguous segment of the first application's result — which the
counterexample shows may be strictly smaller; exact idempotence fails. -/
theorem removeOverlap_shrinks (pre suf c : List Char) (ctx : Context) :
    SubSeg (removeOverlapProcess pre suf c ctx) c ∧
    SubSeg (removeOverlapProcess pre suf (removeOverlapProcess pre suf c ctx) ctx)
      (removeOverlapProcess pre suf c ctx) :=
  ⟨removeOverlapProcess_subSeg pre suf c ctx,
   removeOverlapProcess_subSeg pre suf _ ctx⟩

/-- Claim C7, counterexample: with the cursor inside a fenced code block on
a line that matches the numbered-list pattern AND the task-list pattern
(`1. [x] a` inside a ``` fence), `get_context` returns TaskList, because
TaskList is tested before CodeBlock — refuting "for every (prefix, suffix)
where the sentinel lies in a fenced block and its line matches the
numbered-list pattern, get_context returns CodeBlock". -/
theorem codefence_numbered_not_codeblock :
    codeBlockCursor curExample "```\n1. [x] a".toList "\n```".toList = true ∧
    numberedFound curExample "```\n1. [x] a".toList "\n```".toList = true ∧
    getContext curExample "```\n1. [x] a".toList "\n```".toList = .TaskList ∧
    Context.TaskList ≠ Context.CodeBlock := by decide

/-- Claim C7, amended: `get_context` tests Heading, BlockQuotes, TaskList,
MathBlock, CodeBlock, NumberedList, UnorderedList in that fixed order and
returns the first match; consequently, whenever the sentinel lies inside a
``` fenced block and its line matches the numbered-list pattern, and no
higher-priority pattern (Heading, BlockQuotes, TaskList, block or inline
math) matches, the result is CodeBlock. -/
theorem codefence_wins_over_numbered (cur pre suf : List Char)
    (hH : headerFound cur pre suf = false)
    (hB : bqFound cur pre suf = false)
    (hT : taskFound cur pre suf = false)
    (hM : mathBlockCursor cur pre suf = false)
    (hIM : inlineMathCursor cur pre suf = false)
    (hC : codeBlockCursor cur pre suf = true)
    (_hN : numberedFound cur pre suf = true) :
    getContext cur pre suf = .CodeBlock := by
  simp [getContext, hH, hB, hT, hM, hIM, hC]

/-- Witness for C7: a numbered-list line inside a code fence with none of
the higher-priority patterns present is classified CodeBlock. -/
theorem codefence_wins_over_numbered_witness :
    getContext curExample "```\n1. item".toList "\n```".toList = .CodeBlock :=
  codefence_wins_over_numbered curExample "```\n1. item".toList "\n```".toList
    (by decide) (by decide) (by decide) (by decide) (by decide) (by decide) (by decide)

/-- Claim C8, counterexample: an entry stored at time 0 with the 20 s TTL
has expiry 20, and a lookup at exactly time 20 RETURNS it although its
expiry is not strictly later than the lookup time — refuting the strict
bound `expires_at > t` for returned entries. -/
theorem ttl_boundary_entry_returned :
    (ttlGet 20 "k" (ttlSetItem 20 0 "k" "v" [])).2 = some "v" ∧
    ttlLookup "k" (ttlSetItem 20 0 "k" "v" []) = some ("v", 20) ∧
    ¬ ((20 : ℚ) < 20) := by
  refine ⟨?_, ?_, by norm_num⟩ <;> norm_num [ttlGet, ttlSetItem, ttlLookup]

/-- Claim C8, amended: every entry returned by `_SimpleTTL.get` at time `t`
has `expires_at ≥ t` (the bound is non-strict: an entry whose expiry equals
the lookup time is still returned); an entry with `expires_at < t` is
removed on lookup and the lookup reports a miss. -/
theorem ttl_never_returns_expired (now : ℚ) (k : String) (d : TTLStore) :
    (∀ v, (ttlGet now k d).2 = some v →
      ∃ exp, ttlLookup k d = some (v, exp) ∧ now ≤ exp) ∧
    (∀ v exp, ttlLookup k d = some (v, exp) → exp < now →
      ttlGet now k d = (List.filter (fun e => ¬ (e.1 = k)) d, none)) := by
  constructor
  · intro v hv
    unfold ttlGet at hv
    cases hl : ttlLookup k d with
    | none => rw [hl] at hv; simp at hv
    | some ve =>
      obtain ⟨v', exp⟩ := ve
      rw [hl] at hv
      by_cases hlt : now > exp
      · simp [hlt] at hv
      · simp [hlt] at hv
        subst hv
        exact ⟨exp, rfl, not_lt.mp hlt⟩
  · intro v exp hve hlt
    unfold ttlGet
    rw [hve]
    simp [hlt]

/-- Witness for C8: a lookup at time 5 of an entry expiring at 20 returns
the value with a live expiry, and a lookup at time 30 removes it and
misses. -/
theorem ttl_never_returns_expired_witness :
    (∃ exp, ttlLookup "k" [("k", "v", (20 : ℚ))] = some ("v", exp) ∧ (5 : ℚ) ≤ exp) ∧
    ttlGet 30 "k" [("k", "v", (20 : ℚ))] = ([], none) := by
  constructor
  · exact (ttl_never_returns_expired 5 "k" [("k", "v", (20 : ℚ))]).1 "v"
      (by norm_num [ttlGet, ttlLookup])
  · have h := (ttl_never_returns_expired 30 "k" [("k", "v", (20 : ℚ))]).2 "v" 20
      (by norm_num [ttlLookup]) (by norm_num)
    simpa using h

/-- Claim C9: the request fingerprint `_req_key` depends on the cursor
context only through the last 200 characters of the first half and the
first 60 characters of the second half: two requests with the same
provider and model agreeing on those windows get identical keys, whatever
their more distant parts are.  (`stable_hash` is imported by
`src/server.py` but absent from the source tree; it is modelled from the
spec as an arbitrary fixed function `h` of the windowed string.) -/
theorem reqKey_noninterference (h : List Char → List Char)
    (provider model p1 s1 p2 s2 : List Char)
    (hp : p1.drop (p1.length - 200) = p2.drop (p2.length - 200))
    (hs : s1.take 60 = s2.take 60) :
    reqKey h provider model p1 s1 = reqKey h provider model p2 s2 := by
  unfold reqKey
  rw [hp, hs]

set_option maxRecDepth 8000 in
/-- Witness for C9: two cursor contexts differing only at distance > 200
before the cursor and > 60 after it produce the same key. -/
theorem reqKey_noninterference_witness :
    reqKey id "gemini".toList "gemini-2.5-flash".toList farPre1 farSuf1 =
    reqKey id "gemini".toList "gemini-2.5-flash".toList farPre2 farSuf2 :=
  reqKey_noninterference id _ _ _ _ _ _ (by decide) (by decide)

/-- Claim C10: `RemoveWhitespace.process` leaves the completion unchanged
in CodeBlock and BlockQuotes contexts (they are outside the
context-membership guard), so code-block indentation is never stripped
whatever whitespace surrounds the cursor. -/
theorem removeWhitespace_frame (pre suf c : List Char) :
    removeWhitespaceProcess pre suf c .CodeBlock = c ∧
    removeWhitespaceProcess pre suf c .BlockQuotes = c :=
  ⟨rfl, rfl⟩
